import Mathlib

/-!
Shallow embedding of the drift market-making bot's decision-and-execution
core: the inventory-aware quoting strategy (Strategy.calculateSpread,
Strategy.calculateOrderSize, Strategy.calculateBidAsk), the order executor
(sanitizeOrderParams, cancelAndReplace, placeOrder, getOpenOrders, the
withRetry backoff loop) and the MARKET_MAKING tick of the bot engine
(runMarketMakingMode, shouldUpdateOrder, handleOrderFill, handleOrderCancel).

Conventions:
* The source stores prices and sizes as BN (arbitrary-precision signed
  integers at Drift's fixed-point scales PRICE_PRECISION = 10^6 for prices
  and BASE_PRECISION = 10^9 for sizes).  BN arithmetic is embedded as `Int`;
  BN division truncates toward zero, which is `Int.tdiv`.
* `skewFactor` is a plain JS number in the source, but the code only ever
  uses `Math.floor(skewFactor * 10000)`; the embedding stores that already
  floored integer as the config field `skewFactorScaled`.
* Millisecond timestamps (`Date.now()`) are embedded as `Int`.
* Venue interactions are embedded as the list of venue calls a single
  successful attempt issues (`VenueCall`); the retry wrapper that re-runs a
  failing attempt is modelled separately by `withRetry`.
-/

namespace DriftBot

/-- Drift price fixed-point scale (10^6). -/
def PRICE_PRECISION : Int := 1000000

/-- Drift base-asset fixed-point scale (10^9). -/
def BASE_PRECISION : Int := 1000000000

/-- Source of the reference price, from the strategy configuration. -/
inductive QuoteSource
  | oracle
  | orderbook
deriving DecidableEq, Repr

/-- Embeds the StrategyConfig interface of src/strategy/types.ts.
`skewFactorScaled` stands for `Math.floor(skewFactor * 10000)`, the only
form in which the source reads `skewFactor`. -/
structure StrategyConfig where
  marketIndex : Nat
  symbol : String
  minOrderSize : Int
  baseOrderSize : Int
  spreadBps : Int
  skewFactorScaled : Int
  quoteSource : QuoteSource
  maxPosition : Int
deriving DecidableEq, Repr

/-- First half of Strategy.calculateSpread:
spreadAmount = oraclePrice * spreadBps / 10000, baseHalfSpread = spreadAmount / 2
(BN division truncates toward zero). -/
def baseHalfSpread (cfg : StrategyConfig) (oraclePrice : Int) : Int :=
  ((oraclePrice * cfg.spreadBps).tdiv 10000).tdiv 2

/-- Inventory-skew adjustment of Strategy.calculateSpread (the branch taken
when maxPosition is non-zero):
inventoryRatio = currentPosition * 10000 / maxPosition,
skewRatio = inventoryRatio * skewFactorScaled,
spreadAdjustment = baseHalfSpread * skewRatio / (10000 * 10000). -/
def spreadAdjustment (cfg : StrategyConfig) (oraclePrice currentPosition : Int) : Int :=
  let inventoryRatio := (currentPosition * 10000).tdiv cfg.maxPosition
  let skewRatio := inventoryRatio * cfg.skewFactorScaled
  ((baseHalfSpread cfg oraclePrice) * skewRatio).tdiv (10000 * 10000)

/-- Result record of Strategy.calculateSpread. -/
structure SpreadResult where
  bidSpread : Int
  askSpread : Int
deriving DecidableEq, Repr

/-- Strategy.calculateSpread: returns baseHalfSpread on both sides when
maxPosition is zero (the division-by-zero guard), otherwise applies the
inventory-skew adjustment and clamps each spread at zero. -/
def calculateSpread (cfg : StrategyConfig) (oraclePrice currentPosition : Int) :
    SpreadResult :=
  let b := baseHalfSpread cfg oraclePrice
  if cfg.maxPosition = 0 then
    ⟨b, b⟩
  else
    let adj := spreadAdjustment cfg oraclePrice currentPosition
    let bidSpread := b + adj
    let askSpread := b - adj
    ⟨if bidSpread < 0 then 0 else bidSpread,
     if askSpread < 0 then 0 else askSpread⟩

/-- Result record of Strategy.calculateOrderSize. -/
structure SizeResult where
  bidSize : Int
  askSize : Int
deriving DecidableEq, Repr

/-- Strategy.calculateOrderSize: starts from baseOrderSize on each side,
clamps the bid against maxPosition and the ask against -maxPosition, and
floors any size below minOrderSize to zero. -/
def calculateOrderSize (cfg : StrategyConfig) (currentPosition : Int) : SizeResult :=
  let bidSize0 := cfg.baseOrderSize
  let askSize0 := cfg.baseOrderSize
  let maxPos := cfg.maxPosition
  let bidSize1 :=
    if currentPosition + bidSize0 > maxPos then
      let remainingBuy := maxPos - currentPosition
      if remainingBuy > 0 then remainingBuy else 0
    else bidSize0
  let negMaxPos := -maxPos
  let askSize1 :=
    if currentPosition - askSize0 < negMaxPos then
      let remainingSell := currentPosition - negMaxPos
      if remainingSell > 0 then remainingSell else 0
    else askSize0
  let bidSize2 := if bidSize1 < cfg.minOrderSize then 0 else bidSize1
  let askSize2 := if askSize1 < cfg.minOrderSize then 0 else askSize1
  ⟨bidSize2, askSize2⟩

/-- PositionSide enum of src/strategy/types.ts. -/
inductive PositionSide
  | LONG
  | SHORT
  | NONE
deriving DecidableEq, Repr

/-- QuoteResult interface of src/strategy/types.ts. -/
structure QuoteResult where
  price : Int
  size : Int
  side : PositionSide
  reduceOnly : Bool
  oracleOffset : Int
deriving DecidableEq, Repr

/-- Return record of Strategy.calculateBidAsk. -/
structure BidAskResult where
  bid : QuoteResult
  ask : QuoteResult
deriving DecidableEq, Repr

/-- Strategy.calculateBidAsk: composes calculateSpread and calculateOrderSize;
bidPrice = oraclePrice - bidSpread, askPrice = oraclePrice + askSpread. -/
def calculateBidAsk (cfg : StrategyConfig) (oraclePrice currentPosition : Int) :
    BidAskResult :=
  let s := calculateSpread cfg oraclePrice currentPosition
  let z := calculateOrderSize cfg currentPosition
  let bidPrice := oraclePrice - s.bidSpread
  let askPrice := oraclePrice + s.askSpread
  ⟨⟨bidPrice, z.bidSize, PositionSide.LONG, false, -s.bidSpread⟩,
   ⟨askPrice, z.askSize, PositionSide.SHORT, false, s.askSpread⟩⟩

/-- Drift SDK order types used by the executor. -/
inductive OrderType
  | LIMIT
  | ORACLE
  | MARKET
  | TRIGGER_MARKET
  | TRIGGER_LIMIT
deriving DecidableEq, Repr

/-- Drift SDK PostOnlyParams variants. -/
inductive PostOnlyParams
  | NONE
  | MUST_POST_ONLY
  | TRY_POST_ONLY
  | SLIDE
deriving DecidableEq, Repr

/-- Drift SDK market type. -/
inductive MarketType
  | PERP
  | SPOT
deriving DecidableEq, Repr

/-- Drift SDK position direction. -/
inductive PositionDirection
  | long
  | short
deriving DecidableEq, Repr

/-- Drift order parameters as used by the executor; `none` in an Option field
embeds a field the caller left undefined. -/
structure OrderParams where
  marketIndex : Nat
  orderType : OrderType
  marketType : Option MarketType
  direction : PositionDirection
  baseAssetAmount : Int
  price : Int
  postOnly : Option PostOnlyParams
  reduceOnly : Bool
deriving DecidableEq, Repr

/-- OrderExecutor.sanitizeOrderParams: defaults marketType to PERP, and for
LIMIT and ORACLE order types forces postOnly to TRY_POST_ONLY whenever the
caller left it unset (undefined) or set to NONE. -/
def sanitizeOrderParams (params : OrderParams) : OrderParams :=
  let p1 := if params.marketType = none then { params with marketType := some MarketType.PERP }
            else params
  let p2 := if p1.orderType = OrderType.LIMIT ∧
               (p1.postOnly = none ∨ p1.postOnly = some PostOnlyParams.NONE) then
              { p1 with postOnly := some PostOnlyParams.TRY_POST_ONLY }
            else p1
  let p3 := if p2.orderType = OrderType.ORACLE ∧
               (p2.postOnly = none ∨ p2.postOnly = some PostOnlyParams.NONE) then
              { p2 with postOnly := some PostOnlyParams.TRY_POST_ONLY }
            else p2
  p3

/-- JS parseInt on an order-id string, as used to turn the executor's string
ids into numeric venue ids (modelled as a decimal parse, 0 on failure). -/
def parseIntId (s : String) : Nat := (s.toNat?).getD 0

/-- One call to the venue collaborator (DriftClient).  `placeOrders` carries
the optional bundled cancel instruction (`getCancelOrdersByIdsIx`) as the
ids it cancels. -/
inductive VenueCall
  | placeOrders (orders : List OrderParams) (cancelIxIds : Option (List Nat))
  | cancelOrdersByIds (ids : List Nat)
  | cancelOrders (marketIndex : Option Nat)
deriving DecidableEq, Repr

/-- OrderExecutor.cancelAndReplace, modelled as the venue calls one successful
attempt issues: returns early on ([], []); with a non-empty cancel list it
issues one placeOrders call carrying the cancel instruction for those ids;
otherwise a plain placeOrders call.  New orders are always sanitized. -/
def cancelAndReplace (cancelOrderIds : List String) (newOrders : List OrderParams) :
    List VenueCall :=
  if cancelOrderIds.length = 0 ∧ newOrders.length = 0 then
    []
  else
    let sanitizedOrders := newOrders.map sanitizeOrderParams
    let orderIds := cancelOrderIds.map parseIntId
    if orderIds.length > 0 then
      [VenueCall.placeOrders sanitizedOrders (some orderIds)]
    else
      [VenueCall.placeOrders sanitizedOrders none]

/-- OrderExecutor.placeOrder, modelled as the venue calls one successful
attempt issues: a single placeOrders call with the sanitized params. -/
def placeOrder (params : OrderParams) : List VenueCall :=
  [VenueCall.placeOrders [sanitizeOrderParams params] none]

/-- OrderExecutor.cancelOrder, modelled as the venue calls one successful
attempt issues. -/
def cancelOrder (orderId : String) : List VenueCall :=
  [VenueCall.cancelOrdersByIds [parseIntId orderId]]

/-- OrderExecutor.cancelAllOrders, modelled as the venue calls one successful
attempt issues. -/
def cancelAllOrders (marketIndex : Option Nat) : List VenueCall :=
  [VenueCall.cancelOrders marketIndex]

/-- All order parameters submitted to the venue by a list of venue calls. -/
def submittedOrders : List VenueCall → List OrderParams
  | [] => []
  | VenueCall.placeOrders os _ :: rest => os ++ submittedOrders rest
  | VenueCall.cancelOrdersByIds _ :: rest => submittedOrders rest
  | VenueCall.cancelOrders _ :: rest => submittedOrders rest

/-- Retry cap of OrderExecutor.withRetry (`const maxRetries = 3`). -/
def maxRetries : Nat := 3

/-- Observable trace of one OrderExecutor.withRetry run: the final outcome,
how many times the wrapped venue call was invoked, and the backoff delays
slept between invocations (milliseconds). -/
structure RetryTrace (E A : Type) where
  result : Except E A
  calls : Nat
  delays : List Nat

/-- The loop body of OrderExecutor.withRetry starting at a given value of the
`attempt` counter: call the wrapped function; on failure increment `attempt`,
give up (rethrowing) once `attempt > maxRetries`, otherwise sleep
2^(attempt-1) * 1000 ms and loop.  `fn n` is the outcome of the (n+1)-th
invocation of the wrapped venue call. -/
def withRetryFrom {E A : Type} (fn : Nat → Except E A) (attempt : Nat) : RetryTrace E A :=
  match fn attempt with
  | Except.ok a => ⟨Except.ok a, 1, []⟩
  | Except.error e =>
    if h : attempt + 1 > maxRetries then
      ⟨Except.error e, 1, []⟩
    else
      let delay := 2 ^ ((attempt + 1) - 1) * 1000
      let rest := withRetryFrom fn (attempt + 1)
      ⟨rest.result, rest.calls + 1, delay :: rest.delays⟩
termination_by maxRetries - attempt
decreasing_by
  simp only [maxRetries] at *
  omega

/-- OrderExecutor.withRetry: run the loop with the attempt counter at 0. -/
def withRetry {E A : Type} (fn : Nat → Except E A) : RetryTrace E A :=
  withRetryFrom fn 0

/-- Order status variants reported by the venue (Drift user account orders). -/
inductive OrderStatus
  | open
  | init
  | filled
  | canceled
deriving DecidableEq, Repr

/-- A venue-reported order, as read back by the executor and the engine. -/
structure Order where
  orderId : Nat
  marketIndex : Nat
  direction : PositionDirection
  price : Int
  baseAssetAmount : Int
  status : OrderStatus
deriving DecidableEq, Repr

/-- The venue user account: the orders array the executor filters. -/
structure UserAccount where
  orders : List Order
deriving DecidableEq, Repr

/-- OrderExecutor.getOpenOrders: empty when the venue reports no user account;
otherwise the account's orders filtered to open status and, when a market
index is supplied, to that market. -/
def getOpenOrders (userAccount : Option UserAccount) (marketIndex : Option Nat) :
    List Order :=
  match userAccount with
  | none => []
  | some ua =>
    ua.orders.filter (fun order =>
      if ¬ (order.status = OrderStatus.open) then false
      else
        match marketIndex with
        | some m => decide (order.marketIndex = m)
        | none => true)

/-- BotEngine.ORDER_COOLDOWN (5000 ms). -/
def ORDER_COOLDOWN : Int := 5000

/-- BotEngine.createOrderParams: a LIMIT PERP order with postOnly already
TRY_POST_ONLY. -/
def createOrderParams (marketIndex : Nat) (price size : Int)
    (direction : PositionDirection) (reduceOnly : Bool) : OrderParams :=
  ⟨marketIndex, OrderType.LIMIT, some MarketType.PERP, direction, size, price,
   some PostOnlyParams.TRY_POST_ONLY, reduceOnly⟩

/-- BotEngine.shouldUpdateOrder: a resting order must be replaced when its
price deviates from the target by more than targetPrice * 50 / 10000 (0.5%),
or (when a target size is supplied) its size deviates by more than a tenth of
the current resting size, or more than 30000 ms have passed since the last
order action. -/
def shouldUpdateOrder (order : Order) (targetPrice : Int) (targetSize : Option Int)
    (lastOrderTime now : Int) : Bool :=
  let priceDiff := |order.price - targetPrice|
  let threshold := (targetPrice * 50).tdiv 10000
  let isSizeChanged :=
    match targetSize with
    | some ts =>
      let sizeDiff := |order.baseAssetAmount - ts|
      let sizeThreshold := order.baseAssetAmount.tdiv 10
      decide (sizeDiff > sizeThreshold)
    | none => false
  let isTimeout := decide (now - lastOrderTime > 30000)
  decide (priceDiff > threshold) || isSizeChanged || isTimeout

/-- Mid-price resolution at the top of the MARKET_MAKING tick: with the
orderbook quote source, use (bestBid + bestAsk) / 2 from the order-book feed,
falling back to the cached oracle price when the feed is unavailable or the
mid is zero; otherwise the oracle price. -/
def resolveMidPrice (cfg : StrategyConfig) (currentOraclePrice : Int)
    (bestBidAsk : Option (Int × Int)) : Int :=
  if cfg.quoteSource = QuoteSource.orderbook then
    match bestBidAsk with
    | some ba =>
      let midPrice := (ba.1 + ba.2).tdiv 2
      if midPrice = 0 then currentOraclePrice else midPrice
    | none => currentOraclePrice
  else currentOraclePrice

/-- Outcome of one MARKET_MAKING tick: the awaiting-resync flag afterwards,
the cancelAndReplace call made (`none` when no venue call was issued), and
the lastOrderTime afterwards. -/
structure MMResult where
  waitingAfter : Bool
  call : Option (List String × List OrderParams)
  lastOrderTimeAfter : Int
deriving DecidableEq, Repr

/-- The decision body of BotEngine.runMarketMakingMode after the cooldown and
awaiting-resync checks have passed (so the awaiting flag is false): find the
resting bid/ask, compute the target quote, either force a full two-sided
reset when a required side is missing, or cancel no-longer-required sides and
replace drifted ones; submit one cancelAndReplace when any work accumulated
(updating lastOrderTime), else do nothing. -/
def mmActions (cfg : StrategyConfig) (currentPosition currentOraclePrice : Int)
    (lastOrderTime now : Int) (openOrders : List Order)
    (bestBidAsk : Option (Int × Int)) : MMResult :=
  let bidOrder := openOrders.find? (fun o => o.direction == PositionDirection.long)
  let askOrder := openOrders.find? (fun o => o.direction == PositionDirection.short)
  let midPrice := resolveMidPrice cfg currentOraclePrice bestBidAsk
  let sizes := calculateOrderSize cfg currentPosition
  let spreads := calculateSpread cfg midPrice currentPosition
  let bidPrice := midPrice - spreads.bidSpread
  let askPrice := midPrice + spreads.askSpread
  let needBid := decide (0 < sizes.bidSize)
  let needAsk := decide (0 < currentPosition) && decide (0 < sizes.askSize)
  let missingBid := needBid && bidOrder.isNone
  let missingAsk := needAsk && askOrder.isNone
  let acc : List String × List OrderParams :=
    if missingBid || missingAsk then
      ((bidOrder.toList.map fun o => toString o.orderId) ++
         (askOrder.toList.map fun o => toString o.orderId),
       (if needBid then
          [createOrderParams cfg.marketIndex bidPrice sizes.bidSize PositionDirection.long false]
        else []) ++
       (if needAsk then
          [createOrderParams cfg.marketIndex askPrice sizes.askSize PositionDirection.short true]
        else []))
    else
      let cancelsExcess :=
        (match bidOrder with
         | some o => if !needBid then [toString o.orderId] else []
         | none => []) ++
        (match askOrder with
         | some o => if !needAsk then [toString o.orderId] else []
         | none => [])
      let bidUpdate :=
        match bidOrder with
        | some o => needBid && shouldUpdateOrder o bidPrice (some sizes.bidSize) lastOrderTime now
        | none => false
      let askUpdate :=
        match askOrder with
        | some o => needAsk && shouldUpdateOrder o askPrice (some sizes.askSize) lastOrderTime now
        | none => false
      (cancelsExcess ++
         (if bidUpdate then bidOrder.toList.map (fun o => toString o.orderId) else []) ++
         (if askUpdate then askOrder.toList.map (fun o => toString o.orderId) else []),
       (if bidUpdate then
          [createOrderParams cfg.marketIndex bidPrice sizes.bidSize PositionDirection.long false]
        else []) ++
       (if askUpdate then
          [createOrderParams cfg.marketIndex askPrice sizes.askSize PositionDirection.short true]
        else []))
  if 0 < acc.2.length ∨ 0 < acc.1.length then
    ⟨false, some acc, now⟩
  else
    ⟨false, none, lastOrderTime⟩

/-- BotEngine.runMarketMakingMode: no-op during the order cooldown; while the
awaiting-resync flag is set, clear it when no orders remain open or when more
than 5000 ms have passed since the flag was set, and otherwise return without
any order action; once past the checks run the decision body. -/
def runMarketMakingMode (cfg : StrategyConfig)
    (currentPosition currentOraclePrice lastOrderTime : Int)
    (isWaitingForOrderUpdate : Bool) (waitingStartTime now : Int)
    (openOrders : List Order) (bestBidAsk : Option (Int × Int)) : MMResult :=
  if now - lastOrderTime < ORDER_COOLDOWN then
    ⟨isWaitingForOrderUpdate, none, lastOrderTime⟩
  else if isWaitingForOrderUpdate then
    if openOrders.length = 0 then
      mmActions cfg currentPosition currentOraclePrice lastOrderTime now openOrders bestBidAsk
    else if now - waitingStartTime > 5000 then
      mmActions cfg currentPosition currentOraclePrice lastOrderTime now openOrders bestBidAsk
    else
      ⟨true, none, lastOrderTime⟩
  else
    mmActions cfg currentPosition currentOraclePrice lastOrderTime now openOrders bestBidAsk

/-- Flags owned by the engine that the fill handler mutates. -/
structure EngineFlags where
  lastOrderTime : Int
  isWaitingForOrderUpdate : Bool
  waitingStartTime : Int
deriving DecidableEq, Repr

/-- What BotEngine.handleOrderFill does to the engine state: zero the
cooldown, set the awaiting-resync flag stamped with now, fire a best-effort
cancel-all, resync state and trigger one tick. -/
structure FillOutcome where
  flags : EngineFlags
  firedCancelAll : Bool
  didResync : Bool
  didTick : Bool
deriving DecidableEq, Repr

/-- BotEngine.handleOrderFill. -/
def handleOrderFill (now : Int) : FillOutcome :=
  ⟨⟨0, true, now⟩, true, true, true⟩

/-- What BotEngine.handleOrderCancel does: whether it resynced state and
whether it triggered a tick. -/
structure CancelOutcome where
  didResync : Bool
  didTick : Bool
deriving DecidableEq, Repr

/-- BotEngine.handleOrderCancel: while the awaiting-resync flag is set the
event is expected noise and ignored; otherwise resync and trigger one tick. -/
def handleOrderCancel (isWaitingForOrderUpdate : Bool) : CancelOutcome :=
  if isWaitingForOrderUpdate then ⟨false, false⟩ else ⟨true, true⟩

/-- A representative configuration at the Drift fixed-point scales:
minOrderSize 0.1, baseOrderSize 1, spreadBps 20, skewFactor 0.5 (scaled to
5000), maxPosition 10. -/
def exampleConfig : StrategyConfig :=
  ⟨0, "SOL-PERP", 100000000, 1000000000, 20, 5000, QuoteSource.oracle, 10000000000⟩

/-- A configuration whose baseOrderSize (3) exceeds twice its maxPosition (1),
with minOrderSize 0. -/
def clampConfig : StrategyConfig :=
  ⟨0, "SOL-PERP", 0, 3, 20, 5000, QuoteSource.oracle, 1⟩

/-- A configuration with maxPosition = 0 (inventory skew disabled). -/
def zeroCapConfig : StrategyConfig :=
  ⟨0, "SOL-PERP", 100000000, 1000000000, 20, 5000, QuoteSource.oracle, 0⟩

/-- A resting bid exactly at the target quote computed by exampleConfig for
oracle price 100 and inventory +5 (price 99.875, size 1). -/
def exampleBidOrder : Order :=
  ⟨1, 0, PositionDirection.long, 99875000, 1000000000, OrderStatus.open⟩

/-- A resting ask exactly at the target quote computed by exampleConfig for
oracle price 100 and inventory +5 (price 100.075, size 1). -/
def exampleAskOrder : Order :=
  ⟨2, 0, PositionDirection.short, 100075000, 1000000000, OrderStatus.open⟩

/-- A resting bid priced 1% below a target price of 100. -/
def driftedBidOrder : Order :=
  ⟨3, 0, PositionDirection.long, 99000000, 1000000000, OrderStatus.open⟩

/-- A resting bid priced 0.1% below a target price of 100. -/
def nearTargetBidOrder : Order :=
  ⟨4, 0, PositionDirection.long, 99900000, 1000000000, OrderStatus.open⟩

/-- A LIMIT order intent whose caller left the post-only flag unset. -/
def intentUnset : OrderParams :=
  ⟨0, OrderType.LIMIT, none, PositionDirection.long, 1000000000, 99875000, none, false⟩

/-- A venue call outcome that fails on every invocation. -/
def alwaysError : Nat → Except Unit Unit := fun _ => Except.error ()

/-- An open order on market 2, for exercising getOpenOrders. -/
def exampleOpenOrder : Order :=
  ⟨7, 2, PositionDirection.long, 5, 5, OrderStatus.open⟩

/-- A user account holding an open order on market 2, a non-open order on
market 2 and an open order on market 3. -/
def exampleUserAccount : UserAccount :=
  ⟨[exampleOpenOrder,
    ⟨8, 2, PositionDirection.long, 5, 5, OrderStatus.init⟩,
    ⟨9, 3, PositionDirection.long, 5, 5, OrderStatus.open⟩]⟩

/-! ## Helper lemmas -/

/-- Truncating division of a nonpositive dividend by a nonnegative divisor is
nonpositive. -/
theorem tdiv_nonpos_of_nonpos_of_nonneg (a b : Int) (ha : a ≤ 0) (hb : 0 ≤ b) :
    a.tdiv b ≤ 0 := by
  have h := Int.tdiv_nonneg (a := -a) (b := b) (by omega) hb
  rw [Int.neg_tdiv] at h
  omega

/-- The base half spread is nonnegative for nonnegative price and spreadBps. -/
theorem baseHalfSpread_nonneg (cfg : StrategyConfig) (P : Int) (hP : 0 ≤ P)
    (hbps : 0 ≤ cfg.spreadBps) : 0 ≤ baseHalfSpread cfg P := by
  unfold baseHalfSpread
  exact Int.tdiv_nonneg (Int.tdiv_nonneg (mul_nonneg hP hbps) (by norm_num)) (by norm_num)

/-- With a long (nonnegative) inventory the skew adjustment is nonnegative. -/
theorem spreadAdjustment_nonneg (cfg : StrategyConfig) (P pos : Int) (hP : 0 ≤ P)
    (hbps : 0 ≤ cfg.spreadBps) (hsf : 0 ≤ cfg.skewFactorScaled)
    (hmax : 0 ≤ cfg.maxPosition) (hpos : 0 ≤ pos) :
    0 ≤ spreadAdjustment cfg P pos := by
  unfold spreadAdjustment
  have hr : 0 ≤ (pos * 10000).tdiv cfg.maxPosition :=
    Int.tdiv_nonneg (mul_nonneg hpos (by norm_num)) hmax
  have hb := baseHalfSpread_nonneg cfg P hP hbps
  exact Int.tdiv_nonneg (mul_nonneg hb (mul_nonneg hr hsf)) (by norm_num)

/-- With a short (nonpositive) inventory the skew adjustment is nonpositive. -/
theorem spreadAdjustment_nonpos (cfg : StrategyConfig) (P pos : Int) (hP : 0 ≤ P)
    (hbps : 0 ≤ cfg.spreadBps) (hsf : 0 ≤ cfg.skewFactorScaled)
    (hmax : 0 ≤ cfg.maxPosition) (hpos : pos ≤ 0) :
    spreadAdjustment cfg P pos ≤ 0 := by
  unfold spreadAdjustment
  have hr : (pos * 10000).tdiv cfg.maxPosition ≤ 0 :=
    tdiv_nonpos_of_nonpos_of_nonneg _ _ (by omega) hmax
  have hb := baseHalfSpread_nonneg cfg P hP hbps
  have hsk : ((pos * 10000).tdiv cfg.maxPosition) * cfg.skewFactorScaled ≤ 0 :=
    mul_nonpos_iff.mpr (Or.inr ⟨hr, hsf⟩)
  exact tdiv_nonpos_of_nonpos_of_nonneg _ _ (mul_nonpos_iff.mpr (Or.inl ⟨hb, hsk⟩))
    (by norm_num)

/-- Sign and skew bounds of calculateSpread: both spreads are nonnegative, a
nonnegative inventory keeps the bid spread at or above the base half spread
and the ask spread at or below it, and symmetrically for a nonpositive
inventory. -/
theorem calculateSpread_bounds (cfg : StrategyConfig) (P pos : Int) (hP : 0 < P)
    (hbps : 0 ≤ cfg.spreadBps) (hsf : 0 ≤ cfg.skewFactorScaled)
    (hmax : 0 ≤ cfg.maxPosition) :
    0 ≤ (calculateSpread cfg P pos).bidSpread ∧
    0 ≤ (calculateSpread cfg P pos).askSpread ∧
    (0 ≤ pos → (calculateSpread cfg P pos).askSpread ≤ baseHalfSpread cfg P ∧
      baseHalfSpread cfg P ≤ (calculateSpread cfg P pos).bidSpread) ∧
    (pos ≤ 0 → (calculateSpread cfg P pos).bidSpread ≤ baseHalfSpread cfg P ∧
      baseHalfSpread cfg P ≤ (calculateSpread cfg P pos).askSpread) := by
  have hb := baseHalfSpread_nonneg cfg P hP.le hbps
  unfold calculateSpread
  by_cases hm : cfg.maxPosition = 0
  · simp only [hm, if_true]
    exact ⟨hb, hb, fun _ => ⟨le_refl _, le_refl _⟩, fun _ => ⟨le_refl _, le_refl _⟩⟩
  · simp only [hm, if_false]
    refine ⟨?_, ?_, ?_, ?_⟩
    · dsimp only
      split <;> omega
    · dsimp only
      split <;> omega
    · intro hpos
      have hadj := spreadAdjustment_nonneg cfg P pos hP.le hbps hsf hmax hpos
      constructor <;> · dsimp only; split <;> omega
    · intro hpos
      have hadj := spreadAdjustment_nonpos cfg P pos hP.le hbps hsf hmax hpos
      constructor <;> · dsimp only; split <;> omega

/-- The decision body mmActions always leaves the awaiting-resync flag
cleared. -/
theorem mmActions_waitingAfter (cfg : StrategyConfig)
    (pos oracle lastOrderTime now : Int) (openOrders : List Order)
    (bba : Option (Int × Int)) :
    (mmActions cfg pos oracle lastOrderTime now openOrders bba).waitingAfter = false := by
  unfold mmActions
  dsimp only
  split_ifs <;> rfl

/-- Unfolding withRetryFrom when the attempt succeeds. -/
theorem withRetryFrom_ok {E A : Type} (fn : Nat → Except E A) (attempt : Nat) (a : A)
    (h : fn attempt = Except.ok a) :
    withRetryFrom fn attempt = ⟨Except.ok a, 1, []⟩ := by
  unfold withRetryFrom
  rw [h]

/-- Unfolding withRetryFrom at attempt 3 when the call fails: the retry budget
is exhausted and the error is rethrown. -/
theorem withRetryFrom_last {E A : Type} (fn : Nat → Except E A) (e : E)
    (h : fn 3 = Except.error e) :
    withRetryFrom fn 3 = ⟨Except.error e, 1, []⟩ := by
  unfold withRetryFrom
  rw [h]
  simp [maxRetries]

/-- Unfolding withRetryFrom at an attempt below the cap when the call fails:
sleep 2^attempt * 1000 and loop. -/
theorem withRetryFrom_step {E A : Type} (fn : Nat → Except E A) (k : Nat) (e : E)
    (hk : k < 3) (h : fn k = Except.error e) :
    withRetryFrom fn k =
      ⟨(withRetryFrom fn (k + 1)).result, (withRetryFrom fn (k + 1)).calls + 1,
        2 ^ k * 1000 :: (withRetryFrom fn (k + 1)).delays⟩ := by
  conv_lhs => rw [withRetryFrom]
  rw [h]
  dsimp only
  rw [dif_neg (by simp only [maxRetries]; omega)]
  simp

/-- Every withRetry run invokes the wrapped call at most 4 times and returns
the outcome of one of its actual invocations. -/
theorem withRetryFrom_calls_result {E A : Type} (g : Nat → Except E A) :
    ∀ d k, k + d = 3 →
      (withRetryFrom g k).calls ≤ d + 1 ∧
      ∃ i, k ≤ i ∧ i ≤ 3 ∧ (withRetryFrom g k).result = g i := by
  intro d
  induction d with
  | zero =>
    intro k hk
    have hk3 : k = 3 := by omega
    subst hk3
    rcases h3 : g 3 with e | a
    · rw [withRetryFrom_last g e h3]
      exact ⟨by dsimp only; omega, 3, by omega, by omega, h3.symm⟩
    · rw [withRetryFrom_ok g 3 a h3]
      exact ⟨by dsimp only; omega, 3, by omega, by omega, h3.symm⟩
  | succ d ih =>
    intro k hk
    rcases hcall : g k with e | a
    · rw [withRetryFrom_step g k e (by omega) hcall]
      obtain ⟨hc, i, hi1, hi2, hr⟩ := ih (k + 1) (by omega)
      refine ⟨by dsimp only; omega, i, by omega, hi2, ?_⟩
      dsimp only
      exact hr
    · rw [withRetryFrom_ok g k a hcall]
      exact ⟨by dsimp only; omega, k, by omega, by omega, hcall.symm⟩

/-! ## Claim theorems -/

/-- C1: for every reference price P > 0, every inventory, and every strategy
configuration (spreadBps nonnegative, skewFactor in [0,1] hence its scaled
form nonnegative, maxPosition nonnegative), calculateSpread returns
nonnegative bid and ask spreads; calculateBidAsk quotes bidPrice = P -
bidSpread and askPrice = P + askSpread, so bidPrice < P (resp. P < askPrice)
whenever the corresponding spread is positive; a long inventory yields
bidSpread >= baseHalfSpread >= askSpread and a short inventory the mirror
image. -/
theorem quotes_never_cross (cfg : StrategyConfig) (P pos : Int) (hP : 0 < P)
    (hbps : 0 ≤ cfg.spreadBps) (hsf : 0 ≤ cfg.skewFactorScaled)
    (hmax : 0 ≤ cfg.maxPosition) :
    0 ≤ (calculateSpread cfg P pos).bidSpread ∧
    0 ≤ (calculateSpread cfg P pos).askSpread ∧
    (calculateBidAsk cfg P pos).bid.price = P - (calculateSpread cfg P pos).bidSpread ∧
    (calculateBidAsk cfg P pos).ask.price = P + (calculateSpread cfg P pos).askSpread ∧
    (0 < (calculateSpread cfg P pos).bidSpread → (calculateBidAsk cfg P pos).bid.price < P) ∧
    (0 < (calculateSpread cfg P pos).askSpread → P < (calculateBidAsk cfg P pos).ask.price) ∧
    (0 ≤ pos → (calculateSpread cfg P pos).askSpread ≤ baseHalfSpread cfg P ∧
      baseHalfSpread cfg P ≤ (calculateSpread cfg P pos).bidSpread) ∧
    (pos ≤ 0 → (calculateSpread cfg P pos).bidSpread ≤ baseHalfSpread cfg P ∧
      baseHalfSpread cfg P ≤ (calculateSpread cfg P pos).askSpread) := by
  obtain ⟨h1, h2, h3, h4⟩ := calculateSpread_bounds cfg P pos hP hbps hsf hmax
  have eb : (calculateBidAsk cfg P pos).bid.price
      = P - (calculateSpread cfg P pos).bidSpread := rfl
  have ea : (calculateBidAsk cfg P pos).ask.price
      = P + (calculateSpread cfg P pos).askSpread := rfl
  refine ⟨h1, h2, eb, ea, ?_, ?_, h3, h4⟩
  · intro h
    rw [eb]
    omega
  · intro h
    rw [ea]
    omega

/-- C1 witness: the theorem instantiated at the example configuration,
reference price 100 and inventory +5 (fixed-point scales). -/
theorem quotes_never_cross_witness :
    0 ≤ (calculateSpread exampleConfig 100000000 5000000000).bidSpread ∧
    (calculateBidAsk exampleConfig 100000000 5000000000).bid.price < 100000000 ∧
    baseHalfSpread exampleConfig 100000000
      ≤ (calculateSpread exampleConfig 100000000 5000000000).bidSpread := by
  have h := quotes_never_cross exampleConfig 100000000 5000000000
    (by decide) (by decide) (by decide) (by decide)
  exact ⟨h.1, h.2.2.2.2.1 (by decide), (h.2.2.2.2.2.2.1 (by decide)).2⟩

/-- C7: with maxPosition = 0 calculateSpread skips the inventory skew and
returns baseHalfSpread on both sides for every reference price and every
inventory; the guarded division by maxPosition is never reached. -/
theorem maxPosition_zero_skew_disabled (cfg : StrategyConfig) (P pos : Int)
    (h : cfg.maxPosition = 0) :
    calculateSpread cfg P pos = ⟨baseHalfSpread cfg P, baseHalfSpread cfg P⟩ := by
  simp [calculateSpread, h]

/-- C7 witness: the theorem instantiated at a zero-cap configuration with a
nonzero inventory and the example oracle price. -/
theorem maxPosition_zero_skew_disabled_witness :
    calculateSpread zeroCapConfig 100000000 12345 =
      ⟨baseHalfSpread zeroCapConfig 100000000, baseHalfSpread zeroCapConfig 100000000⟩ :=
  maxPosition_zero_skew_disabled zeroCapConfig 100000000 12345 rfl

/-- C9: at the Drift fixed-point scales (PRICE_PRECISION 10^6,
BASE_PRECISION 10^9) the implementation reproduces the worked examples:
inventory 0, spreadBps 20, price 100 gives baseHalfSpread 0.1, bid 99.9 and
ask 100.1; inventory +5, maxPosition 10, skewFactor 0.5, spreadBps 20,
price 100 gives adjustment 0.025, bidSpread 0.125, askSpread 0.075, bid
99.875 and ask 100.075. -/
theorem strategy_fixed_point_examples :
    baseHalfSpread exampleConfig 100000000 = 100000 ∧
    calculateSpread exampleConfig 100000000 0 = ⟨100000, 100000⟩ ∧
    (calculateBidAsk exampleConfig 100000000 0).bid.price = 99900000 ∧
    (calculateBidAsk exampleConfig 100000000 0).ask.price = 100100000 ∧
    spreadAdjustment exampleConfig 100000000 5000000000 = 25000 ∧
    calculateSpread exampleConfig 100000000 5000000000 = ⟨125000, 75000⟩ ∧
    (calculateBidAsk exampleConfig 100000000 5000000000).bid.price = 99875000 ∧
    (calculateBidAsk exampleConfig 100000000 5000000000).ask.price = 100075000 := by
  decide

/-- C6 (amended): calculateOrderSize starts from baseOrderSize on each side;
the bid is clamped so inventory at or over the cap gives bidSize = 0 and
inventory within the cap keeps I + bidSize <= maxPosition; symmetrically the
ask keeps I - askSize >= -maxPosition and is zero at or below -maxPosition;
sizes below minOrderSize are floored to zero; at I = maxPosition the bid is
zero, and the ask remains baseOrderSize provided baseOrderSize is at most
2 * maxPosition (otherwise the short-side clamp reduces it) and at least
minOrderSize (otherwise the dust floor zeroes it). -/
theorem calculateOrderSize_clamps (cfg : StrategyConfig) (I : Int)
    (hbase : 0 ≤ cfg.baseOrderSize) (hmin : 0 ≤ cfg.minOrderSize)
    (hmax : 0 ≤ cfg.maxPosition) :
    (cfg.maxPosition ≤ I → (calculateOrderSize cfg I).bidSize = 0) ∧
    (I ≤ cfg.maxPosition → I + (calculateOrderSize cfg I).bidSize ≤ cfg.maxPosition) ∧
    (I ≤ -cfg.maxPosition → (calculateOrderSize cfg I).askSize = 0) ∧
    (-cfg.maxPosition ≤ I → -cfg.maxPosition ≤ I - (calculateOrderSize cfg I).askSize) ∧
    ((calculateOrderSize cfg I).bidSize = 0 ∨
      cfg.minOrderSize ≤ (calculateOrderSize cfg I).bidSize) ∧
    ((calculateOrderSize cfg I).askSize = 0 ∨
      cfg.minOrderSize ≤ (calculateOrderSize cfg I).askSize) ∧
    (I = cfg.maxPosition →
      (calculateOrderSize cfg I).bidSize = 0 ∧
      (cfg.baseOrderSize ≤ 2 * cfg.maxPosition → cfg.minOrderSize ≤ cfg.baseOrderSize →
        (calculateOrderSize cfg I).askSize = cfg.baseOrderSize)) := by
  unfold calculateOrderSize
  dsimp only
  split_ifs <;> constructor <;> omega

/-- C6 witness: the amended theorem instantiated at the example configuration
with the inventory exactly at the long cap: the bid is zero and the ask keeps
the base order size. -/
theorem calculateOrderSize_clamps_witness :
    (calculateOrderSize exampleConfig 10000000000).bidSize = 0 ∧
    (calculateOrderSize exampleConfig 10000000000).askSize = exampleConfig.baseOrderSize := by
  have h := calculateOrderSize_clamps exampleConfig 10000000000
    (by decide) (by decide) (by decide)
  have hcap := h.2.2.2.2.2.2 (by decide)
  exact ⟨hcap.1, hcap.2 (by decide) (by decide)⟩

/-- C6 counterexample: with baseOrderSize 3 greater than twice maxPosition 1,
an inventory exactly at the long cap clamps the ask to 2 (inventory plus
maxPosition), so the ask side is NOT left unaffected at baseOrderSize. -/
theorem calculateOrderSize_ask_clamped_at_cap :
    (calculateOrderSize clampConfig 1).bidSize = 0 ∧
    (calculateOrderSize clampConfig 1).askSize = 2 ∧
    (calculateOrderSize clampConfig 1).askSize ≠ clampConfig.baseOrderSize := by
  decide

/-- C10: getOpenOrders is total: with no venue user account it returns the
empty list, and otherwise an order is returned exactly when it is among the
account's orders, its status is open, and it matches the market-index filter
whenever one is supplied. -/
theorem getOpenOrders_filters (ua : UserAccount) (mi : Option Nat) (o : Order) :
    getOpenOrders none mi = [] ∧
    (o ∈ getOpenOrders (some ua) mi ↔
      o ∈ ua.orders ∧ o.status = OrderStatus.open ∧
        ∀ m, mi = some m → o.marketIndex = m) := by
  refine ⟨rfl, ?_⟩
  simp only [getOpenOrders, List.mem_filter]
  by_cases hst : o.status = OrderStatus.open
  · cases mi with
    | none => simp [hst]
    | some m =>
      simp only [hst, not_true, if_false, decide_eq_true_eq]
      constructor
      · rintro ⟨hmem, hm⟩
        exact ⟨hmem, trivial, fun m' hm' => by cases hm'; exact hm⟩
      · rintro ⟨hmem, _, hall⟩
        exact ⟨hmem, hall m rfl⟩
  · cases mi <;> simp [hst]

/-- C10 witness: the theorem instantiated at the example user account with a
market filter, exhibiting a returned open order on the filtered market. -/
theorem getOpenOrders_filters_witness :
    exampleOpenOrder ∈ getOpenOrders (some exampleUserAccount) (some 2) := by
  have h := (getOpenOrders_filters exampleUserAccount (some 2) exampleOpenOrder).2
  exact h.mpr ⟨by decide, rfl, by intro m hm; cases hm; rfl⟩

/-- Sanitization preserves the order type; when the order type is LIMIT or
ORACLE the sanitized postOnly is neither unset nor NONE, and it is forced to
TRY_POST_ONLY whenever the caller left it unset or NONE. -/
theorem sanitizeOrderParams_spec (p : OrderParams) :
    (sanitizeOrderParams p).orderType = p.orderType ∧
    ((p.orderType = OrderType.LIMIT ∨ p.orderType = OrderType.ORACLE) →
      (sanitizeOrderParams p).postOnly ≠ none ∧
      (sanitizeOrderParams p).postOnly ≠ some PostOnlyParams.NONE) ∧
    ((p.orderType = OrderType.LIMIT ∨ p.orderType = OrderType.ORACLE) →
      (p.postOnly = none ∨ p.postOnly = some PostOnlyParams.NONE) →
      (sanitizeOrderParams p).postOnly = some PostOnlyParams.TRY_POST_ONLY) := by
  rcases p with ⟨mi, ot, mt, dir, ba, pr, po, ro⟩
  cases ot <;> rcases mt with _ | mtv <;> rcases po with _ | pov <;>
    first
      | (cases pov <;> simp [sanitizeOrderParams])
      | simp [sanitizeOrderParams]

/-- C2: every LIMIT or ORACLE intent submitted through placeOrder or
cancelAndReplace reaches the venue with its post-only flag set: the executor
forces an unset or NONE flag to TRY_POST_ONLY during sanitization, and every
order parameter either operation hands to the venue has a flag that is
neither unset nor NONE. -/
theorem executor_forces_post_only (cancelIds : List String)
    (intents : List OrderParams) (p : OrderParams) :
    ((p.orderType = OrderType.LIMIT ∨ p.orderType = OrderType.ORACLE) →
      (p.postOnly = none ∨ p.postOnly = some PostOnlyParams.NONE) →
      (sanitizeOrderParams p).postOnly = some PostOnlyParams.TRY_POST_ONLY) ∧
    (∀ q ∈ submittedOrders (placeOrder p),
      (q.orderType = OrderType.LIMIT ∨ q.orderType = OrderType.ORACLE) →
      q.postOnly ≠ none ∧ q.postOnly ≠ some PostOnlyParams.NONE) ∧
    (∀ q ∈ submittedOrders (cancelAndReplace cancelIds intents),
      (q.orderType = OrderType.LIMIT ∨ q.orderType = OrderType.ORACLE) →
      q.postOnly ≠ none ∧ q.postOnly ≠ some PostOnlyParams.NONE) := by
  refine ⟨(sanitizeOrderParams_spec p).2.2, ?_, ?_⟩
  · intro q hq hty
    have hq' : q = sanitizeOrderParams p := by
      simpa [placeOrder, submittedOrders] using hq
    subst hq'
    exact (sanitizeOrderParams_spec p).2.1 (by rwa [(sanitizeOrderParams_spec p).1] at hty)
  · intro q hq hty
    have hq' : ∃ r ∈ intents, q = sanitizeOrderParams r := by
      simp only [cancelAndReplace] at hq
      split_ifs at hq
      · simp [submittedOrders] at hq
      · simp only [submittedOrders, List.append_nil] at hq
        obtain ⟨r, hr, hrq⟩ := List.mem_map.mp hq
        exact ⟨r, hr, hrq.symm⟩
      · simp only [submittedOrders, List.append_nil] at hq
        obtain ⟨r, hr, hrq⟩ := List.mem_map.mp hq
        exact ⟨r, hr, hrq.symm⟩
    obtain ⟨r, _, rfl⟩ := hq'
    exact (sanitizeOrderParams_spec r).2.1
      (by rwa [(sanitizeOrderParams_spec r).1] at hty)

/-- C2 witness: the theorem applied to a LIMIT intent whose caller left the
post-only flag unset: sanitization forces TRY_POST_ONLY. -/
theorem executor_forces_post_only_witness :
    (sanitizeOrderParams intentUnset).postOnly = some PostOnlyParams.TRY_POST_ONLY :=
  (executor_forces_post_only [] [] intentUnset).1 (Or.inl rfl) (Or.inl rfl)

/-- C3: cancelAndReplace on two empty lists issues no venue call; with an
empty cancel list and non-empty intents it degrades to a single plain
placeOrders call (no cancel instruction); with a non-empty cancel list it
issues exactly one venue call bundling the cancel instruction for those ids
with the sanitized placements. -/
theorem cancelAndReplace_atomic_shape (cancelIds : List String)
    (intents : List OrderParams) :
    cancelAndReplace [] [] = [] ∧
    (intents ≠ [] → cancelAndReplace [] intents =
      [VenueCall.placeOrders (intents.map sanitizeOrderParams) none]) ∧
    (cancelIds ≠ [] → cancelAndReplace cancelIds intents =
      [VenueCall.placeOrders (intents.map sanitizeOrderParams)
        (some (cancelIds.map parseIntId))]) := by
  refine ⟨rfl, ?_, ?_⟩
  · intro h
    unfold cancelAndReplace
    rw [if_neg (by simp [List.length_eq_zero, h])]
    rw [if_neg (by simp)]
  · intro h
    unfold cancelAndReplace
    rw [if_neg (by simp [List.length_eq_zero, h])]
    rw [if_pos (by simp [List.length_pos, h])]

/-- C3 witness: one cancel id and one unset-post-only intent produce exactly
one bundled venue call whose placement carries the forced post-only flag. -/
theorem cancelAndReplace_atomic_shape_witness :
    cancelAndReplace ["1"] [intentUnset] =
      [VenueCall.placeOrders ([intentUnset].map sanitizeOrderParams)
        (some (["1"].map parseIntId))] :=
  (cancelAndReplace_atomic_shape ["1"] [intentUnset]).2.2 (by decide)

/-- C4 (amended): withRetry invokes the wrapped venue call at most 4 times in
total (one initial attempt plus at most 3 retries), its outcome is always the
outcome of one of the actual invocations (no failure is swallowed and no
retry loop runs forever), and when every attempt fails it makes exactly 4
invocations with exponential backoff delays 1000, 2000 and 4000 ms before
propagating the final error. -/
theorem withRetry_exponential_backoff {E A : Type} (fn : Nat → Except E A)
    (hfail : ∀ i, i < 4 → ∃ e, fn i = Except.error e) :
    (∀ g : Nat → Except E A,
      (withRetry g).calls ≤ 4 ∧ ∃ i, i < 4 ∧ (withRetry g).result = g i) ∧
    (withRetry fn).calls = 4 ∧
    (withRetry fn).delays = [1000, 2000, 4000] ∧
    (withRetry fn).result = fn 3 := by
  obtain ⟨e0, h0⟩ := hfail 0 (by omega)
  obtain ⟨e1, h1⟩ := hfail 1 (by omega)
  obtain ⟨e2, h2⟩ := hfail 2 (by omega)
  obtain ⟨e3, h3⟩ := hfail 3 (by omega)
  constructor
  · intro g
    obtain ⟨hc, i, _, hi3, hr⟩ := withRetryFrom_calls_result g 3 0 (by omega)
    exact ⟨hc, i, by omega, hr⟩
  · unfold withRetry
    rw [withRetryFrom_step fn 0 e0 (by omega) h0, withRetryFrom_step fn 1 e1 (by omega) h1,
      withRetryFrom_step fn 2 e2 (by omega) h2, withRetryFrom_last fn e3 h3]
    refine ⟨rfl, by norm_num, h3.symm⟩

/-- C4 witness: the amended theorem applied to an always-failing call: 4
invocations, delays 1000, 2000, 4000 ms, and the final error propagated. -/
theorem withRetry_exponential_backoff_witness :
    (withRetry alwaysError).calls = 4 ∧
    (withRetry alwaysError).delays = [1000, 2000, 4000] ∧
    (withRetry alwaysError).result = alwaysError 3 := by
  have h := withRetry_exponential_backoff alwaysError (fun i _ => ⟨(), rfl⟩)
  exact h.2

/-- C4 counterexample: an always-failing venue call is invoked 4 times, not
at most 3, refuting the claim that the underlying call is invoked at most 3
times in total. -/
theorem withRetry_four_invocations :
    (withRetry alwaysError).calls = 4 ∧ ¬ ((withRetry alwaysError).calls ≤ 3) := by
  have h0 := withRetryFrom_step alwaysError 0 () (by omega) rfl
  have h1 := withRetryFrom_step alwaysError 1 () (by omega) rfl
  have h2 := withRetryFrom_step alwaysError 2 () (by omega) rfl
  have h3 := withRetryFrom_last alwaysError () rfl
  unfold withRetry
  rw [h0, h1, h2, h3]
  exact ⟨rfl, by decide⟩

/-- C5: while the awaiting-resync flag is set, a MARKET_MAKING tick with a
non-empty open-order list within the 5000 ms window makes no venue call,
keeps the flag set and does not touch lastOrderTime; once past the cooldown,
an empty open-order list clears the flag, and so does an elapsed window of
more than 5000 ms; a fill sets the flag with its timestamp and zeroes the
cooldown; and an order-cancel event arriving while the flag is set performs
no resync and triggers no tick. -/
theorem awaiting_resync_suppresses (cfg : StrategyConfig)
    (pos oracle lastOrderTime waitingStart now : Int) (openOrders : List Order)
    (bba : Option (Int × Int)) :
    (openOrders ≠ [] → now - waitingStart ≤ 5000 →
      runMarketMakingMode cfg pos oracle lastOrderTime true waitingStart now openOrders bba
        = ⟨true, none, lastOrderTime⟩) ∧
    (¬ (now - lastOrderTime < ORDER_COOLDOWN) → openOrders = [] →
      (runMarketMakingMode cfg pos oracle lastOrderTime true waitingStart now
        openOrders bba).waitingAfter = false) ∧
    (¬ (now - lastOrderTime < ORDER_COOLDOWN) → now - waitingStart > 5000 →
      (runMarketMakingMode cfg pos oracle lastOrderTime true waitingStart now
        openOrders bba).waitingAfter = false) ∧
    (handleOrderFill now).flags.isWaitingForOrderUpdate = true ∧
    (handleOrderFill now).flags.waitingStartTime = now ∧
    (handleOrderFill now).flags.lastOrderTime = 0 ∧
    handleOrderCancel true = ⟨false, false⟩ := by
  refine ⟨?_, ?_, ?_, rfl, rfl, rfl, rfl⟩
  · intro h1 h2
    unfold runMarketMakingMode
    by_cases hc : now - lastOrderTime < ORDER_COOLDOWN
    · rw [if_pos hc]
    · rw [if_neg hc, if_pos rfl,
        if_neg (fun h => h1 (List.length_eq_zero.mp h)), if_neg (by omega)]
  · intro hc h0
    unfold runMarketMakingMode
    rw [if_neg hc, if_pos rfl, if_pos (by simp [h0])]
    exact mmActions_waitingAfter cfg pos oracle lastOrderTime now openOrders bba
  · intro hc h5
    unfold runMarketMakingMode
    rw [if_neg hc, if_pos rfl]
    by_cases h0 : openOrders.length = 0
    · rw [if_pos h0]
      exact mmActions_waitingAfter cfg pos oracle lastOrderTime now openOrders bba
    · rw [if_neg h0, if_pos h5]
      exact mmActions_waitingAfter cfg pos oracle lastOrderTime now openOrders bba

/-- C5 witness: the theorem instantiated 3000 ms into the waiting window with
one order still open: the tick is fully suppressed and the cancel event is
ignored. -/
theorem awaiting_resync_suppresses_witness :
    runMarketMakingMode exampleConfig 0 100000000 0 true 0 3000 [exampleBidOrder] none
      = ⟨true, none, 0⟩ ∧
    handleOrderCancel true = ⟨false, false⟩ := by
  have h := awaiting_resync_suppresses exampleConfig 0 100000000 0 0 3000
    [exampleBidOrder] none
  exact ⟨h.1 (by decide) (by decide), h.2.2.2.2.2.2⟩

/-- C8: in MARKET_MAKING, once past the cooldown with the awaiting-resync
flag clear and both required sides resting, the submitted cancelAndReplace
work consists of exactly the resting orders flagged by shouldUpdateOrder
(paired with their replacement placements), and no call at all when neither
side is flagged; shouldUpdateOrder flags an order exactly when its price
deviates from the target by more than targetPrice * 50 / 10000 (0.5%), or
its size deviates by more than a tenth of the resting size, or more than
30000 ms passed since the last order action; a bid 1% off target is flagged,
a bid 0.1% off is not. -/
theorem mm_replaces_drifted_orders (cfg : StrategyConfig)
    (pos oracle lastOrderTime waitingStart now : Int)
    (openOrders : List Order) (bba : Option (Int × Int)) (bidO askO : Order)
    (hcool : ¬ (now - lastOrderTime < ORDER_COOLDOWN))
    (hfb : openOrders.find? (fun o => o.direction == PositionDirection.long) = some bidO)
    (hfa : openOrders.find? (fun o => o.direction == PositionDirection.short) = some askO)
    (hneedBid : 0 < (calculateOrderSize cfg pos).bidSize)
    (hpos : 0 < pos)
    (hneedAsk : 0 < (calculateOrderSize cfg pos).askSize) :
    ((runMarketMakingMode cfg pos oracle lastOrderTime false waitingStart now
        openOrders bba).call =
      (let midPrice := resolveMidPrice cfg oracle bba
       let sizes := calculateOrderSize cfg pos
       let spreads := calculateSpread cfg midPrice pos
       let bidPrice := midPrice - spreads.bidSpread
       let askPrice := midPrice + spreads.askSpread
       let bidUpd := shouldUpdateOrder bidO bidPrice (some sizes.bidSize) lastOrderTime now
       let askUpd := shouldUpdateOrder askO askPrice (some sizes.askSize) lastOrderTime now
       if bidUpd || askUpd then
         some ((if bidUpd then [toString bidO.orderId] else []) ++
               (if askUpd then [toString askO.orderId] else []),
               (if bidUpd then
                  [createOrderParams cfg.marketIndex bidPrice sizes.bidSize
                    PositionDirection.long false]
                else []) ++
               (if askUpd then
                  [createOrderParams cfg.marketIndex askPrice sizes.askSize
                    PositionDirection.short true]
                else []))
       else none)) ∧
    (∀ (o : Order) (tp ts lot n : Int),
      shouldUpdateOrder o tp (some ts) lot n = true ↔
        ((tp * 50).tdiv 10000 < |o.price - tp| ∨
         o.baseAssetAmount.tdiv 10 < |o.baseAssetAmount - ts| ∨
         30000 < n - lot)) ∧
    shouldUpdateOrder driftedBidOrder 100000000 (some 1000000000) 0 10000 = true ∧
    shouldUpdateOrder nearTargetBidOrder 100000000 (some 1000000000) 0 10000 = false := by
  refine ⟨?_, ?_, by decide, by decide⟩
  · unfold runMarketMakingMode
    rw [if_neg hcool, if_neg (by simp)]
    unfold mmActions
    rw [hfb, hfa]
    have hnb : decide (0 < (calculateOrderSize cfg pos).bidSize) = true :=
      decide_eq_true hneedBid
    have hp : decide (0 < pos) = true := decide_eq_true hpos
    have hna : decide (0 < (calculateOrderSize cfg pos).askSize) = true :=
      decide_eq_true hneedAsk
    simp only [hnb, hp, hna, Option.isNone_some, Bool.and_false, Bool.true_and,
      Bool.or_self, Bool.not_true, Bool.false_or, Option.toList_some, List.map_cons,
      List.map_nil, if_false, Bool.false_eq_true, ite_false]
    cases hbu : shouldUpdateOrder bidO
        (resolveMidPrice cfg oracle bba -
          (calculateSpread cfg (resolveMidPrice cfg oracle bba) pos).bidSpread)
        (some (calculateOrderSize cfg pos).bidSize) lastOrderTime now <;>
      cases hau : shouldUpdateOrder askO
          (resolveMidPrice cfg oracle bba +
            (calculateSpread cfg (resolveMidPrice cfg oracle bba) pos).askSpread)
          (some (calculateOrderSize cfg pos).askSize) lastOrderTime now <;>
        simp [hbu, hau]
  · intro o tp ts lot n
    unfold shouldUpdateOrder
    simp only [Bool.or_eq_true, decide_eq_true_eq, gt_iff_lt, or_assoc]

/-- C8 witness: the theorem instantiated with both resting orders exactly at
the freshly computed targets, 10000 ms after the last order action: neither
side is flagged and no venue call is made. -/
theorem mm_replaces_drifted_orders_witness :
    (runMarketMakingMode exampleConfig 5000000000 100000000 0 false 0 10000
      [exampleBidOrder, exampleAskOrder] none).call = none := by
  have h := mm_replaces_drifted_orders exampleConfig 5000000000 100000000 0 0 10000
    [exampleBidOrder, exampleAskOrder] none exampleBidOrder exampleAskOrder
    (by decide) (by decide) (by decide) (by decide) (by decide) (by decide)
  rw [h.1]
  decide

end DriftBot
